import Mathlib

/-!
Shallow embedding of the liftingdiarycorse workout-dashboard core:

* `src/lib/date-utils.ts` — calendar-date parsing/formatting and day-boundary
  helpers over JavaScript `Date` values.
* `src/db/schema.ts` — the users/workouts/exercises/sets relational schema.
* `src/data/workout.ts` — identity resolution (`getAuthenticatedUserId`) and
  the workout query service (`getWorkoutsByDate`, `getWorkoutStatsByDate`,
  `getUserWorkouts`).

A JavaScript `Date` is modelled as the integer count of milliseconds shown on
the local clock (a plain `Int`); the code only ever uses local-time
accessors (`setHours`, `getFullYear`, `getMonth`, `getDate`), so the local
clock value is the faithful observable. Calendar conversion uses the standard
civil-from-days / days-from-civil algorithms, which is what the ECMAScript
`MakeDay` specification computes. `Int` division `/` and `%` in Lean are
floor-style (Euclidean) for the positive divisors used here, matching the
real `floor` and positive `modulo` of the ECMAScript specification.
-/

namespace LiftingDiary

/-- Milliseconds in one day. -/
def msPerDay : Int := 86400000

/-- JS `date.setHours(0, 0, 0, 0)` (date-utils.ts `getStartOfDay`): the local
midnight of the calendar day containing `date`. -/
def getStartOfDay (date : Int) : Int :=
  (date / msPerDay) * msPerDay

/-- JS `date.setHours(23, 59, 59, 999)` (date-utils.ts `getEndOfDay`): the last
millisecond of the calendar day containing `date`. -/
def getEndOfDay (date : Int) : Int :=
  (date / msPerDay) * msPerDay + 86399999

/-- A proleptic-Gregorian calendar date, the observable of the JS accessors
`getFullYear` / `getMonth`+1 / `getDate`. -/
structure CivilDate where
  year : Int
  month : Int
  day : Int
deriving DecidableEq, Repr

/-- Day number (days since 1970-01-01) of a civil date with `1 ≤ m ≤ 12`;
the standard days-from-civil computation used by ECMAScript `MakeDay`. -/
def daysFromCivil (y m d : Int) : Int :=
  let y2 := if m ≤ 2 then y - 1 else y
  let era := y2 / 400
  let yoe := y2 - era * 400
  let doy := (153 * (m + (if 2 < m then -3 else 9)) + 2) / 5 + d - 1
  let doe := yoe * 365 + yoe / 4 - yoe / 100 + doy
  era * 146097 + doe - 719468

/-- Civil date of a day number; inverse of `daysFromCivil`, the computation
behind the JS `getFullYear` / `getMonth` / `getDate` accessors. -/
def civilFromDays (z0 : Int) : CivilDate :=
  let z := z0 + 719468
  let era := z / 146097
  let doe := z - era * 146097
  let yoe := (doe - doe / 1460 + doe / 36524 - doe / 146096) / 365
  let y := yoe + era * 400
  let doy := doe - (365 * yoe + yoe / 4 - yoe / 100)
  let mp := (5 * doy + 2) / 153
  let d := doy - (153 * mp + 2) / 5 + 1
  let m := mp + (if mp < 10 then 3 else -9)
  { year := y + (if m ≤ 2 then 1 else 0), month := m, day := d }

/-- ECMAScript `MakeDay(year, monthIndex, day)`: the month index rolls over
into adjacent years and the day of month rolls over into adjacent months. -/
def jsMakeDay (year monthIndex day : Int) : Int :=
  let ym := year + monthIndex / 12
  let mn := monthIndex % 12
  daysFromCivil ym (mn + 1) 1 + (day - 1)

/-- JS `new Date(year, monthIndex, day)` at local midnight: years 0–99 are
interpreted as 1900–1999, and the resulting time value is `NaN` (here `none`)
outside the representable ±8.64e15 ms range — the condition `isNaN(getTime())`
checks. -/
def jsNewDateYMD (year monthIndex day : Int) : Option Int :=
  let y := if 0 ≤ year ∧ year ≤ 99 then year + 1900 else year
  let dayNum := jsMakeDay y monthIndex day
  if -8640000000000000 ≤ dayNum * msPerDay ∧ dayNum * msPerDay ≤ 8640000000000000 then
    some (dayNum * msPerDay)
  else
    none

/-- Numeric value of a decimal digit character. -/
def digitVal (c : Char) : Int :=
  (c.toNat : Int) - 48

/-- The textual shape `\d{4}-\d{2}-\d{2}` tested by the `dateRegex` in
date-utils.ts `parseDateFromYYYYMMDD`. -/
def matchesDateShape : List Char → Bool
  | [y1, y2, y3, y4, s1, m1, m2, s2, d1, d2] =>
    y1.isDigit && y2.isDigit && y3.isDigit && y4.isDigit && s1 == '-' &&
    m1.isDigit && m2.isDigit && s2 == '-' && d1.isDigit && d2.isDigit
  | _ => false

/-- Character-level body of date-utils.ts `parseDateFromYYYYMMDD`: validate the
`\d{4}-\d{2}-\d{2}` shape, build `new Date(year, month - 1, day)`, reject a
`NaN` time value, and force the result to local midnight. -/
def parseDateChars : List Char → Option Int
  | [y1, y2, y3, y4, s1, m1, m2, s2, d1, d2] =>
    if y1.isDigit && y2.isDigit && y3.isDigit && y4.isDigit && s1 == '-' &&
        m1.isDigit && m2.isDigit && s2 == '-' && d1.isDigit && d2.isDigit then
      let year := 1000 * digitVal y1 + 100 * digitVal y2 + 10 * digitVal y3 + digitVal y4
      let month := 10 * digitVal m1 + digitVal m2
      let day := 10 * digitVal d1 + digitVal d2
      match jsNewDateYMD year (month - 1) day with
      | none => none
      | some date => some (getStartOfDay date)
    else
      none
  | _ => none

/-- date-utils.ts `parseDateFromYYYYMMDD`. -/
def parseDateFromYYYYMMDD (dateString : String) : Option Int :=
  parseDateChars dateString.toList

/-- JS `String(n).padStart(2, "0")`. -/
def padTwoDigits (n : Int) : String :=
  let s := toString n
  if s.length < 2 then "0" ++ s else s

/-- date-utils.ts `formatDateToYYYYMMDD`: local year, zero-padded month and
day, joined with dashes. -/
def formatDateToYYYYMMDD (date : Int) : String :=
  let c := civilFromDays (date / msPerDay)
  toString c.year ++ "-" ++ padTwoDigits c.month ++ "-" ++ padTwoDigits c.day

/-!
The relational schema of `src/db/schema.ts`. The `createdAt` / `updatedAt`
audit columns are omitted: no query in `src/data/workout.ts` reads them.
-/

/-- A row of `usersTable` (`clerkId` and `email` carry unique constraints). -/
structure UserRow where
  id : Int
  clerkId : String
  name : String
  email : String
deriving DecidableEq, Repr

/-- A row of `workoutsTable`; `startedAt` and `completedAt` are timestamps,
`duration` is the optional duration in minutes. -/
structure WorkoutRow where
  id : Int
  userId : Int
  name : String
  notes : Option String
  startedAt : Int
  completedAt : Option Int
  duration : Option Int
deriving DecidableEq, Repr

/-- A row of `exercisesTable`. -/
structure ExerciseRow where
  id : Int
  workoutId : Int
  exerciseName : String
  exerciseOrder : Int
  notes : Option String
deriving DecidableEq, Repr

/-- A row of `setsTable`; the decimal `weight` column is modelled in
hundredths (numeric with scale 2). -/
structure SetRow where
  id : Int
  exerciseId : Int
  setNumber : Int
  reps : Int
  weight : Option Int
  weightUnit : String
  rpe : Option Int
  rir : Option Int
  isWarmup : Bool
  notes : Option String
deriving DecidableEq, Repr

/-- The persisted state: the four tables plus the next identity value of the
users sequence. -/
structure DB where
  users : List UserRow
  workouts : List WorkoutRow
  exercises : List ExerciseRow
  sets : List SetRow
  nextUserId : Int
deriving DecidableEq, Repr

/-- The persistence-engine calls issued by `src/data/workout.ts`; each run of
an operation records its calls in order. -/
inductive DbOp
  | queryUsersFindFirst
  | insertUsers
  | queryWorkoutsFindMany
deriving DecidableEq, Repr

/-- A rejected persistence call. -/
inductive DbError
  | uniqueViolation
deriving DecidableEq, Repr

/-- `db.insert(usersTable).values({clerkId, email, name}).returning()`:
fails with a uniqueness violation when the `users_clerkId_unique` or
`users_email_unique` constraint is hit, otherwise appends the new row with the
next generated identity. -/
def insertUser (db : DB) (clerkId email name : String) :
    Except DbError (UserRow × DB) :=
  if db.users.any (fun u => u.clerkId == clerkId || u.email == email) then
    .error .uniqueViolation
  else
    let row : UserRow := { id := db.nextUserId, clerkId := clerkId, name := name, email := email }
    .ok (row, { db with users := db.users ++ [row], nextUserId := db.nextUserId + 1 })

/-!
The Clerk auth collaborator and the identity resolver of
`src/data/workout.ts` (`getAuthenticatedUserId`).
-/

/-- The profile returned by Clerk `currentUser()`: the `emailAddress` strings
of `emailAddresses`, plus the optional names. -/
structure ClerkUser where
  emailAddresses : List String
  firstName : Option String
  lastName : Option String
deriving DecidableEq, Repr

/-- The auth collaborator's answers during one request: `auth().userId` and
`currentUser()`. -/
structure AuthEnv where
  authUserId : Option String
  clerkCurrentUser : Option ClerkUser
deriving DecidableEq, Repr

/-- JS truthiness of an optional string: `null`, `undefined` and `""` are
falsy. -/
def jsTruthy : Option String → Bool
  | none => false
  | some s => s ≠ ""

/-- The errors `src/data/workout.ts` can throw: `"Unauthorized"`,
`"User email not found"`, or an uncaught rejected persistence call. -/
inductive AppError
  | unauthorized
  | userEmailNotFound
  | dbError (e : DbError)
deriving DecidableEq, Repr

deriving instance DecidableEq for Except

/-- JS `String.prototype.trim()`: strip whitespace from both ends. -/
def jsTrim (s : String) : String :=
  ⟨((s.data.dropWhile Char.isWhitespace).reverse.dropWhile Char.isWhitespace).reverse⟩

/-- Characters before the first occurrence of `sep`; JS `s.split(sep)[0]`
keeps the whole string when `sep` does not occur. -/
def jsSplitFirst (sep : Char) : List Char → List Char
  | [] => []
  | c :: cs => if c == sep then [] else c :: jsSplitFirst sep cs

/-- JS `email.split("@")[0]` as a `String`. -/
def emailLocalPart (email : String) : String :=
  ⟨jsSplitFirst '@' email.data⟩

/-- The display-name derivation of `getAuthenticatedUserId` (workout.ts lines
35–37): `clerkUser.firstName ? (firstName + " " + (lastName || "")).trim()
: email?.split("@")[0] || "User"`. -/
def deriveDisplayName (firstName lastName email : Option String) : String :=
  if jsTruthy firstName then
    jsTrim ((firstName.getD "") ++ " " ++ (lastName.getD ""))
  else
    let localPart := (email.map emailLocalPart).getD ""
    if localPart ≠ "" then localPart else "User"

/-- workout.ts `getAuthenticatedUserId`: resolve `auth().userId`, look the
user up by `clerkId`, and on a miss provision a row from the `currentUser()`
profile. Returns the outcome, the resulting store, and the persistence calls
issued. -/
def getAuthenticatedUserId (env : AuthEnv) (db : DB) :
    Except AppError Int × DB × List DbOp :=
  if ¬ jsTruthy env.authUserId then
    (.error .unauthorized, db, [])
  else
    match db.users.find? (fun u => u.clerkId == env.authUserId.getD "") with
    | some user => (.ok user.id, db, [.queryUsersFindFirst])
    | none =>
      match env.clerkCurrentUser with
      | none => (.error .unauthorized, db, [.queryUsersFindFirst])
      | some clerkUser =>
        if ¬ jsTruthy clerkUser.emailAddresses.head? then
          (.error .userEmailNotFound, db, [.queryUsersFindFirst])
        else
          match insertUser db (env.authUserId.getD "")
              (clerkUser.emailAddresses.head?.getD "")
              (deriveDisplayName clerkUser.firstName clerkUser.lastName
                clerkUser.emailAddresses.head?) with
          | .error e => (.error (.dbError e), db, [.queryUsersFindFirst, .insertUsers])
          | .ok (newUser, db2) => (.ok newUser.id, db2, [.queryUsersFindFirst, .insertUsers])

/-- workout.ts `getAuthenticatedUserId` under a first-provisioning race: the
same code, but the initial `findFirst` observes the store state `dbAtLookup`
while the insert executes against `dbAtInsert`, into which a concurrent
resolution may have committed the same user in the meantime. The sequential
`getAuthenticatedUserId` is the special case `dbAtInsert = dbAtLookup`. -/
def getAuthenticatedUserIdInterleaved (env : AuthEnv) (dbAtLookup dbAtInsert : DB) :
    Except AppError Int × DB × List DbOp :=
  if ¬ jsTruthy env.authUserId then
    (.error .unauthorized, dbAtInsert, [])
  else
    match dbAtLookup.users.find? (fun u => u.clerkId == env.authUserId.getD "") with
    | some user => (.ok user.id, dbAtInsert, [.queryUsersFindFirst])
    | none =>
      match env.clerkCurrentUser with
      | none => (.error .unauthorized, dbAtInsert, [.queryUsersFindFirst])
      | some clerkUser =>
        if ¬ jsTruthy clerkUser.emailAddresses.head? then
          (.error .userEmailNotFound, dbAtInsert, [.queryUsersFindFirst])
        else
          match insertUser dbAtInsert (env.authUserId.getD "")
              (clerkUser.emailAddresses.head?.getD "")
              (deriveDisplayName clerkUser.firstName clerkUser.lastName
                clerkUser.emailAddresses.head?) with
          | .error e => (.error (.dbError e), dbAtInsert, [.queryUsersFindFirst, .insertUsers])
          | .ok (newUser, db2) => (.ok newUser.id, db2, [.queryUsersFindFirst, .insertUsers])

/-!
The workout query service of `src/data/workout.ts`. The drizzle relational
reads (`with: {exercises: {with: {sets}}}`) load related rows through the
declared foreign keys, applying the per-level `orderBy` clauses.
-/

/-- An exercise row together with its eagerly loaded sets. -/
structure ExerciseWithSets where
  exercise : ExerciseRow
  sets : List SetRow
deriving DecidableEq, Repr

/-- A workout row together with its eagerly loaded exercises and sets. -/
structure WorkoutWithExercises where
  workout : WorkoutRow
  exercises : List ExerciseWithSets
deriving DecidableEq, Repr

/-- A workout row with bare exercise rows (`with: {exercises: true}`), the
shape read by `getWorkoutStatsByDate`. -/
structure WorkoutWithExerciseRows where
  workout : WorkoutRow
  exercises : List ExerciseRow
deriving DecidableEq, Repr

/-- The nested load `sets: {orderBy: asc(sets.setNumber)}` of one exercise. -/
def setsOfExercise (db : DB) (ex : ExerciseRow) : List SetRow :=
  (db.sets.filter (fun s => s.exerciseId == ex.id)).mergeSort
    (fun a b => decide (a.setNumber ≤ b.setNumber))

/-- The nested load `exercises: {orderBy: asc(exercises.exerciseOrder), with:
{sets: ...}}` of one workout. -/
def exercisesWithSetsOfWorkout (db : DB) (w : WorkoutRow) : List ExerciseWithSets :=
  ((db.exercises.filter (fun e => e.workoutId == w.id)).mergeSort
      (fun a b => decide (a.exerciseOrder ≤ b.exerciseOrder))).map
    (fun e => { exercise := e, sets := setsOfExercise db e })

/-- The shared where-clause of `getWorkoutsByDate` and
`getWorkoutStatsByDate`: `and(eq(userId), gte(startedAt, s), lte(startedAt, e))`. -/
def workoutDateFilter (uid : Int) (s e : Int) (w : WorkoutRow) : Bool :=
  w.userId == uid && decide (s ≤ w.startedAt) && decide (w.startedAt ≤ e)

/-- workout.ts `getWorkoutsByDate`: resolve the user, filter their workouts to
the inclusive local-day range, order by `startedAt` descending, and eagerly
load ordered exercises and sets. -/
def getWorkoutsByDate (env : AuthEnv) (db : DB) (date : Int) :
    Except AppError (List WorkoutWithExercises) × DB × List DbOp :=
  match getAuthenticatedUserId env db with
  | (.error e, db1, ops) => (.error e, db1, ops)
  | (.ok userId, db1, ops) =>
    (.ok (((db1.workouts.filter
            (workoutDateFilter userId (getStartOfDay date) (getEndOfDay date))).mergeSort
          (fun a b => decide (b.startedAt ≤ a.startedAt))).map
        (fun w => { workout := w, exercises := exercisesWithSetsOfWorkout db1 w })),
      db1, ops ++ [.queryWorkoutsFindMany])

/-- The statistics record returned by `getWorkoutStatsByDate`. -/
structure WorkoutStats where
  totalWorkouts : Nat
  totalExercises : Nat
  totalDuration : Int
deriving DecidableEq, Repr

/-- The `findMany` read of `getWorkoutStatsByDate`: the same user-and-day
where-clause, no `orderBy`, eager `exercises: true` (no sets). -/
def statsRows (db : DB) (uid : Int) (date : Int) : List WorkoutWithExerciseRows :=
  (db.workouts.filter (workoutDateFilter uid (getStartOfDay date) (getEndOfDay date))).map
    (fun w => { workout := w, exercises := db.exercises.filter (fun e => e.workoutId == w.id) })

/-- workout.ts `getWorkoutStatsByDate`: the `statsRows` read, then the three
reductions `workouts.length`, `reduce (+ exercises.length)`,
`reduce (+ (duration || 0))`. -/
def getWorkoutStatsByDate (env : AuthEnv) (db : DB) (date : Int) :
    Except AppError WorkoutStats × DB × List DbOp :=
  match getAuthenticatedUserId env db with
  | (.error e, db1, ops) => (.error e, db1, ops)
  | (.ok userId, db1, ops) =>
    (.ok { totalWorkouts := (statsRows db1 userId date).length,
            totalExercises :=
              (statsRows db1 userId date).foldl (fun sum w => sum + w.exercises.length) 0,
            totalDuration :=
              (statsRows db1 userId date).foldl
                (fun sum w => sum + (w.workout.duration.getD 0)) 0 },
      db1, ops ++ [.queryWorkoutsFindMany])

/-- workout.ts `getUserWorkouts`: all of the user's workouts, unfiltered by
date, ordered by `startedAt` descending with the same nested eager load as
`getWorkoutsByDate`. -/
def getUserWorkouts (env : AuthEnv) (db : DB) :
    Except AppError (List WorkoutWithExercises) × DB × List DbOp :=
  match getAuthenticatedUserId env db with
  | (.error e, db1, ops) => (.error e, db1, ops)
  | (.ok userId, db1, ops) =>
    (.ok (((db1.workouts.filter (fun w => w.userId == userId)).mergeSort
          (fun a b => decide (b.startedAt ≤ a.startedAt))).map
        (fun w => { workout := w, exercises := exercisesWithSetsOfWorkout db1 w })),
      db1, ops ++ [.queryWorkoutsFindMany])

/-!
Propositions and fixtures used to state the claims.
-/

/-- The ordering contract on a materialized query result: workouts descending
by `startedAt`, exercises ascending by `exerciseOrder`, sets ascending by
`setNumber`. -/
def resultOrdered (ws : List WorkoutWithExercises) : Prop :=
  ws.Pairwise (fun a b => b.workout.startedAt ≤ a.workout.startedAt)
  ∧ (∀ item ∈ ws, item.exercises.Pairwise
      (fun a b => a.exercise.exerciseOrder ≤ b.exercise.exerciseOrder))
  ∧ (∀ item ∈ ws, ∀ ex ∈ item.exercises, ex.sets.Pairwise
      (fun a b => a.setNumber ≤ b.setNumber))

/-- The user-and-day filtered workout rows both dated reads are built from. -/
def filteredWorkouts (db : DB) (uid : Int) (date : Int) : List WorkoutRow :=
  db.workouts.filter (workoutDateFilter uid (getStartOfDay date) (getEndOfDay date))

/-- Rewrite every workout's `completedAt`; used to state that the computed
statistics never depend on completion timestamps. -/
def setWorkoutCompletedAt (db : DB) (f : WorkoutRow → Option Int) : DB :=
  { db with workouts := db.workouts.map (fun w => { w with completedAt := f w }) }

/-- Auth fixture: external id `ext_1`, email `a@b.com`, no names on file. -/
def extEnv : AuthEnv :=
  { authUserId := some "ext_1",
    clerkCurrentUser := some { emailAddresses := ["a@b.com"], firstName := none, lastName := none } }

/-- Auth fixture: first name `Jane`, last name absent. -/
def janeEnv : AuthEnv :=
  { authUserId := some "ext_1",
    clerkCurrentUser := some { emailAddresses := ["a@b.com"], firstName := some "Jane", lastName := none } }

/-- Auth fixture: a principal whose profile exposes no email address. -/
def noEmailEnv : AuthEnv :=
  { authUserId := some "ext_1",
    clerkCurrentUser := some { emailAddresses := [], firstName := none, lastName := none } }

/-- An empty store whose users identity sequence is at 1. -/
def emptyStore : DB := { users := [], workouts := [], exercises := [], sets := [], nextUserId := 1 }

/-- The store after `ext_1` has been provisioned (as a concurrent resolution
would leave it). -/
def provisionedStore : DB :=
  { users := [{ id := 1, clerkId := "ext_1", name := "a", email := "a@b.com" }],
    workouts := [], exercises := [], sets := [], nextUserId := 2 }

/-- A workout of user 1 started at `2024-03-10T23:30:00` local time
(day 19792 since epoch, plus 84600000 ms). -/
def eveningWorkout : WorkoutRow :=
  { id := 10, userId := 1, name := "Evening Session", notes := none,
    startedAt := 1710113400000, completedAt := none, duration := some 45 }

/-- Second exercise of the evening workout (order 2). -/
def benchExercise : ExerciseRow :=
  { id := 100, workoutId := 10, exerciseName := "Bench Press", exerciseOrder := 2, notes := none }

/-- First exercise of the evening workout (order 1). -/
def squatExercise : ExerciseRow :=
  { id := 101, workoutId := 10, exerciseName := "Squat", exerciseOrder := 1, notes := none }

/-- Set 1 of the bench exercise. -/
def benchSet1 : SetRow :=
  { id := 1000, exerciseId := 100, setNumber := 1, reps := 5, weight := none,
    weightUnit := "lbs", rpe := none, rir := none, isWarmup := false, notes := none }

/-- Set 2 of the bench exercise. -/
def benchSet2 : SetRow :=
  { id := 1001, exerciseId := 100, setNumber := 2, reps := 5, weight := none,
    weightUnit := "lbs", rpe := none, rir := none, isWarmup := false, notes := none }

/-- Only set of the squat exercise. -/
def squatSet1 : SetRow :=
  { id := 1002, exerciseId := 101, setNumber := 1, reps := 8, weight := none,
    weightUnit := "lbs", rpe := none, rir := none, isWarmup := true, notes := none }

/-- Store fixture: user 1 with the evening workout, its two exercises stored
out of presentation order, and the bench sets stored out of order. -/
def mainStore : DB :=
  { users := [{ id := 1, clerkId := "ext_1", name := "a", email := "a@b.com" }],
    workouts := [eveningWorkout],
    exercises := [benchExercise, squatExercise],
    sets := [benchSet2, benchSet1, squatSet1],
    nextUserId := 2 }

/-- The fully ordered materialization of the evening workout. -/
def eveningItem : WorkoutWithExercises :=
  { workout := eveningWorkout,
    exercises := [{ exercise := squatExercise, sets := [squatSet1] },
                  { exercise := benchExercise, sets := [benchSet1, benchSet2] }] }

/-- Local midnight of 2024-03-10 (day 19792). -/
def day20240310 : Int := 1710028800000

/-- Local midnight of 2024-03-11 (day 19793). -/
def day20240311 : Int := 1710115200000

end LiftingDiary

namespace LiftingDiary

/-!
Helper lemmas.
-/

/-- A mergeSort result is pairwise ordered by any relation implied by a
transitive, total comparator. -/
theorem pairwise_of_mergeSort {α : Type} (le : α → α → Bool) (r : α → α → Prop)
    (hr : ∀ a b, le a b = true → r a b)
    (htrans : ∀ a b c, le a b = true → le b c = true → le a c = true)
    (htotal : ∀ a b, (le a b || le b a) = true) (l : List α) :
    (l.mergeSort le).Pairwise r :=
  (List.sorted_mergeSort htrans htotal l).imp (fun h => hr _ _ h)

/-- Folding an accumulated sum equals the sum of the mapped list. -/
theorem foldl_add_eq_sum {α : Type} {M : Type} [AddCommMonoid M] (g : α → M) :
    ∀ (l : List α) (init : M), l.foldl (fun s a => s + g a) init = init + (l.map g).sum
  | [], init => by simp
  | a :: l, init => by
    rw [List.foldl_cons, foldl_add_eq_sum g l (init + g a)]
    simp [add_assoc]

/-- Start-of-day values are local midnights. -/
theorem getStartOfDay_emod (d : Int) : getStartOfDay d % msPerDay = 0 := by
  simp only [getStartOfDay, msPerDay]
  omega

/-- Decimal digit characters take values between 0 and 9. -/
theorem digitVal_bounds (c : Char) (h : c.isDigit = true) :
    0 ≤ digitVal c ∧ digitVal c ≤ 9 := by
  have hb : 48 ≤ c.toNat ∧ c.toNat ≤ 57 := by simpa [Char.isDigit] using h
  unfold digitVal
  omega

/-- Day numbers of civil dates in the range reachable from a parsed
`\d{4}-\d{2}-\d{2}` string are bounded. -/
theorem daysFromCivil_bound (y m : Int) (hy1 : 99 ≤ y) (hy2 : y ≤ 10008)
    (hm1 : 1 ≤ m) (hm2 : m ≤ 12) :
    -719469 ≤ daysFromCivil y m 1 ∧ daysFromCivil y m 1 ≤ 3300000 := by
  simp only [daysFromCivil]
  split_ifs <;> omega

/-- Within the numeric ranges a shape-valid string can produce, the JS date
constructor never yields an invalid (`NaN`) time value, and the result is a
local midnight. -/
theorem jsNewDateYMD_isSome (year monthIndex day : Int)
    (h1 : 0 ≤ year) (h2 : year ≤ 9999) (h3 : -1 ≤ monthIndex) (h4 : monthIndex ≤ 98)
    (h5 : 0 ≤ day) (h6 : day ≤ 99) :
    ∃ t : Int, jsNewDateYMD year monthIndex day = some t ∧ t % msPerDay = 0 := by
  have hy : (100:Int) ≤ (if 0 ≤ year ∧ year ≤ 99 then year + 1900 else year)
      ∧ (if 0 ≤ year ∧ year ≤ 99 then year + 1900 else year) ≤ 9999 := by
    split_ifs <;> omega
  obtain ⟨hy1, hy2⟩ := hy
  obtain ⟨hb1, hb2⟩ := daysFromCivil_bound
    ((if 0 ≤ year ∧ year ≤ 99 then year + 1900 else year) + monthIndex / 12)
    (monthIndex % 12 + 1) (by omega) (by omega) (by omega) (by omega)
  simp only [jsNewDateYMD, jsMakeDay, msPerDay]
  rw [if_pos]
  · exact ⟨_, rfl, by omega⟩
  · constructor <;> omega

/-- Case analysis of `parseDateChars`: it yields `none` exactly on character
lists failing the date shape, and every parse result is a local midnight. -/
theorem parseDateChars_characterization (cs : List Char) :
    (parseDateChars cs = none ↔ matchesDateShape cs = false)
    ∧ ∀ t : Int, parseDateChars cs = some t → t % msPerDay = 0 := by
  rcases cs with _ | ⟨c1, cs⟩
  · simp [parseDateChars, matchesDateShape]
  rcases cs with _ | ⟨c2, cs⟩
  · simp [parseDateChars, matchesDateShape]
  rcases cs with _ | ⟨c3, cs⟩
  · simp [parseDateChars, matchesDateShape]
  rcases cs with _ | ⟨c4, cs⟩
  · simp [parseDateChars, matchesDateShape]
  rcases cs with _ | ⟨c5, cs⟩
  · simp [parseDateChars, matchesDateShape]
  rcases cs with _ | ⟨c6, cs⟩
  · simp [parseDateChars, matchesDateShape]
  rcases cs with _ | ⟨c7, cs⟩
  · simp [parseDateChars, matchesDateShape]
  rcases cs with _ | ⟨c8, cs⟩
  · simp [parseDateChars, matchesDateShape]
  rcases cs with _ | ⟨c9, cs⟩
  · simp [parseDateChars, matchesDateShape]
  rcases cs with _ | ⟨c10, cs⟩
  · simp [parseDateChars, matchesDateShape]
  rcases cs with _ | ⟨c11, cs⟩
  swap
  · simp [parseDateChars, matchesDateShape]
  by_cases hsh : (c1.isDigit && c2.isDigit && c3.isDigit && c4.isDigit && (c5 == '-') &&
      c6.isDigit && c7.isDigit && (c8 == '-') && c9.isDigit && c10.isDigit) = true
  · have hsh2 := hsh
    simp only [Bool.and_eq_true] at hsh2
    obtain ⟨⟨⟨⟨⟨⟨⟨⟨⟨hd1, hd2⟩, hd3⟩, hd4⟩, hs5⟩, hd6⟩, hd7⟩, hs8⟩, hd9⟩, hd10⟩ := hsh2
    have b1 := digitVal_bounds c1 hd1
    have b2 := digitVal_bounds c2 hd2
    have b3 := digitVal_bounds c3 hd3
    have b4 := digitVal_bounds c4 hd4
    have b6 := digitVal_bounds c6 hd6
    have b7 := digitVal_bounds c7 hd7
    have b9 := digitVal_bounds c9 hd9
    have b10 := digitVal_bounds c10 hd10
    obtain ⟨t0, ht0, hmod⟩ := jsNewDateYMD_isSome
      (1000 * digitVal c1 + 100 * digitVal c2 + 10 * digitVal c3 + digitVal c4)
      (10 * digitVal c6 + digitVal c7 - 1)
      (10 * digitVal c9 + digitVal c10)
      (by omega) (by omega) (by omega) (by omega) (by omega) (by omega)
    constructor
    · simp [parseDateChars, matchesDateShape, hsh, ht0]
    · intro t ht
      simp only [parseDateChars, hsh, if_true, ht0] at ht
      obtain rfl : getStartOfDay t0 = t := by
        simpa using ht
      exact getStartOfDay_emod t0
  · constructor
    · simp [parseDateChars, matchesDateShape, hsh]
    · intro t ht
      simp [parseDateChars, hsh] at ht

/-!
The claims.
-/

/-- C10: `parseDateFromYYYYMMDD` returns `null` exactly on inputs failing the
textual shape `\d{4}-\d{2}-\d{2}`; every shape-matching string yields a
non-null date at local midnight, with out-of-calendar-range values rolling
over into adjacent months and years — concretely `"2024-13-45"` parses to
2025-02-14 (day 20133), so `formatDateToYYYYMMDD` of the parse result does
not round-trip to the input. -/
theorem parseRejectsExactlyMalformedShapes (s : String) (t : Int) :
    (parseDateFromYYYYMMDD s = none ↔ matchesDateShape s.toList = false)
    ∧ (parseDateFromYYYYMMDD s = some t → t % msPerDay = 0)
    ∧ parseDateFromYYYYMMDD "2024-13-45" = some (20133 * msPerDay)
    ∧ formatDateToYYYYMMDD (20133 * msPerDay) = "2025-02-14"
    ∧ matchesDateShape "2024-13-45".toList = true
    ∧ formatDateToYYYYMMDD (20133 * msPerDay) ≠ "2024-13-45" := by
  obtain ⟨hiff, hmid⟩ := parseDateChars_characterization s.toList
  exact ⟨hiff, fun h => hmid t h, by decide, by decide, by decide, by decide⟩

/-- C10 witness: the characterization applied at the concrete shape-matching
input `"2024-13-45"` and its parse result. -/
theorem parseRejectsExactlyMalformedShapes_witness :
    parseDateFromYYYYMMDD "2024-13-45" ≠ none ∧ (20133 * msPerDay) % msPerDay = 0 := by
  have h := parseRejectsExactlyMalformedShapes "2024-13-45" (20133 * msPerDay)
  exact ⟨fun hn => by simp [h.2.2.1] at hn, h.2.1 h.2.2.1⟩

/-- C8: with no authenticated principal, `getAuthenticatedUserId` fails with
the `Unauthorized` error before any persistence call, and `getWorkoutsByDate`
fails with the same error having issued no persistence call either — the
empty operation trace — leaving the store untouched. -/
theorem unauthenticatedFailsWithoutDbCalls (env : AuthEnv) (db : DB) (date : Int)
    (h : env.authUserId = none) :
    getAuthenticatedUserId env db = (.error .unauthorized, db, [])
    ∧ getWorkoutsByDate env db date = (.error .unauthorized, db, []) := by
  have ha : getAuthenticatedUserId env db = (.error .unauthorized, db, []) := by
    unfold getAuthenticatedUserId
    rw [h]
    simp [jsTruthy]
  refine ⟨ha, ?_⟩
  unfold getWorkoutsByDate
  rw [ha]

/-- C8 witness: the theorem at a concrete unauthenticated environment. -/
theorem unauthenticatedFailsWithoutDbCalls_witness :
    getWorkoutsByDate { authUserId := none, clerkCurrentUser := none } mainStore day20240310
      = (.error .unauthorized, mainStore, []) :=
  (unauthenticatedFailsWithoutDbCalls
    { authUserId := none, clerkCurrentUser := none } mainStore day20240310 rfl).2

/-- C9: with a principal present but no email address obtainable from the
profile, `getAuthenticatedUserId` fails with the `User email not found` error
— an error distinct from `Unauthorized` — the store is unchanged, and no
insert operation is issued. -/
theorem missingEmailFailsWithoutInsert (env : AuthEnv) (db : DB) (cid : String)
    (cu : ClerkUser)
    (hauth : env.authUserId = some cid) (hcid : cid ≠ "")
    (hmiss : db.users.find? (fun u => u.clerkId == cid) = none)
    (hcu : env.clerkCurrentUser = some cu)
    (hemail : jsTruthy cu.emailAddresses.head? = false) :
    getAuthenticatedUserId env db = (.error .userEmailNotFound, db, [.queryUsersFindFirst])
    ∧ AppError.userEmailNotFound ≠ AppError.unauthorized := by
  refine ⟨?_, by simp⟩
  unfold getAuthenticatedUserId
  rw [hauth]
  rw [if_neg (by simp [jsTruthy, hcid])]
  simp only [Option.getD_some]
  rw [hmiss, hcu]
  dsimp only
  rw [if_pos (by simp [hemail])]

/-- C9 witness: the theorem at a concrete principal with an empty
`emailAddresses` list. -/
theorem missingEmailFailsWithoutInsert_witness :
    getAuthenticatedUserId noEmailEnv emptyStore
      = (.error .userEmailNotFound, emptyStore, [.queryUsersFindFirst]) :=
  (missingEmailFailsWithoutInsert noEmailEnv emptyStore "ext_1"
    { emailAddresses := [], firstName := none, lastName := none }
    rfl (by decide) rfl rfl rfl).1

/-- C5: on first-time provisioning the display name has this precedence —
truthy first name gives the trimmed `firstName + " " + (lastName || "")`,
otherwise the nonempty local part of the email (before the first `@`),
otherwise the literal `"User"`; concretely, provisioning `ext_1` with email
`a@b.com` and no names stores the name `"a"`, and with first name `Jane` and
no last name stores `"Jane"`. -/
theorem displayNamePrecedence :
    (∀ fn ln em : Option String, jsTruthy fn = true →
        deriveDisplayName fn ln em = jsTrim ((fn.getD "") ++ " " ++ (ln.getD "")))
    ∧ (∀ fn ln em : Option String, jsTruthy fn = false →
        (em.map emailLocalPart).getD "" ≠ "" →
        deriveDisplayName fn ln em = (em.map emailLocalPart).getD "")
    ∧ (∀ fn ln em : Option String, jsTruthy fn = false →
        (em.map emailLocalPart).getD "" = "" →
        deriveDisplayName fn ln em = "User")
    ∧ deriveDisplayName none none (some "a@b.com") = "a"
    ∧ deriveDisplayName (some "Jane") none (some "a@b.com") = "Jane"
    ∧ (getAuthenticatedUserId extEnv emptyStore).2.1.users.map UserRow.name = ["a"]
    ∧ (getAuthenticatedUserId janeEnv emptyStore).2.1.users.map UserRow.name = ["Jane"] := by
  refine ⟨?_, ?_, ?_, by decide, by decide, by decide, by decide⟩
  · intro fn ln em h
    simp [deriveDisplayName, h]
  · intro fn ln em h hne
    simp [deriveDisplayName, h, hne]
  · intro fn ln em h he
    simp [deriveDisplayName, h, he]

/-- C5 witness: the precedence rules applied at the claim's concrete
profiles. -/
theorem displayNamePrecedence_witness :
    deriveDisplayName (some "Jane") none (some "a@b.com")
        = jsTrim (("Jane" ++ " " ++ ""))
    ∧ deriveDisplayName none none (some "a@b.com") = "a" := by
  exact ⟨displayNamePrecedence.1 (some "Jane") none (some "a@b.com") (by decide),
    displayNamePrecedence.2.2.2.1⟩

/-- C1: a successful `getWorkoutsByDate` returns exactly the workouts of the
resolved user whose `startedAt` lies in the inclusive local-day interval
`[date 00:00:00.000, date 23:59:59.999]` — as a permutation of the filtered
table rows, and as a membership characterization: a row appears iff it is the
user's and starts within the bounds, so no other user's workout and no
adjacent-day workout is ever returned. -/
theorem dateScopedRead (env : AuthEnv) (db : DB) (date : Int)
    (uid : Int) (db1 : DB) (ops : List DbOp) (ws : List WorkoutWithExercises)
    (hauth : getAuthenticatedUserId env db = (.ok uid, db1, ops))
    (hrun : (getWorkoutsByDate env db date).1 = .ok ws) (w : WorkoutRow) :
    List.Perm (ws.map WorkoutWithExercises.workout)
        (db1.workouts.filter (workoutDateFilter uid (getStartOfDay date) (getEndOfDay date)))
    ∧ ((∃ item ∈ ws, item.workout = w) ↔
        w ∈ db1.workouts ∧ w.userId = uid ∧
          getStartOfDay date ≤ w.startedAt ∧ w.startedAt ≤ getEndOfDay date) := by
  unfold getWorkoutsByDate at hrun
  rw [hauth] at hrun
  dsimp only at hrun
  rw [Except.ok.injEq] at hrun
  subst hrun
  constructor
  · rw [List.map_map]
    have : (WorkoutWithExercises.workout ∘ fun w =>
        ({ workout := w, exercises := exercisesWithSetsOfWorkout db1 w } : WorkoutWithExercises))
        = id := rfl
    rw [this, List.map_id]
    exact (List.mergeSort_perm _ _)
  · constructor
    · rintro ⟨item, hitem, rfl⟩
      rcases List.mem_map.mp hitem with ⟨x, hx, rfl⟩
      rw [List.mem_mergeSort, List.mem_filter] at hx
      obtain ⟨hmem, hfil⟩ := hx
      unfold workoutDateFilter at hfil
      simp only [Bool.and_eq_true, beq_iff_eq, decide_eq_true_eq] at hfil
      exact ⟨hmem, hfil.1.1, hfil.1.2, hfil.2⟩
    · rintro ⟨hmem, huid, h1, h2⟩
      refine ⟨{ workout := w, exercises := exercisesWithSetsOfWorkout db1 w }, ?_, rfl⟩
      apply List.mem_map.mpr
      refine ⟨w, ?_, rfl⟩
      rw [List.mem_mergeSort, List.mem_filter]
      refine ⟨hmem, ?_⟩
      unfold workoutDateFilter
      simp only [Bool.and_eq_true, beq_iff_eq, decide_eq_true_eq]
      exact ⟨⟨huid, h1⟩, h2⟩

unseal List.merge List.mergeSort in
/-- C1 witness: the workout started `2024-03-10T23:30:00` local time is in
the result for date 2024-03-10 and not in the result for 2024-03-11. -/
theorem dateScopedRead_witness :
    (∃ item ∈ [eveningItem], item.workout = eveningWorkout)
    ∧ ¬ (∃ item ∈ ([] : List WorkoutWithExercises), item.workout = eveningWorkout) := by
  constructor
  · exact (dateScopedRead extEnv mainStore day20240310 1 mainStore [.queryUsersFindFirst]
      [eveningItem] (by decide) (by decide) eveningWorkout).2.mpr (by decide)
  · intro hmem
    have h := (dateScopedRead extEnv mainStore day20240311 1 mainStore [.queryUsersFindFirst]
      [] (by decide) (by decide) eveningWorkout).2.mp hmem
    revert h
    decide

/-- C3 counterexample: in the first-provisioning race — the lookup sees a
store without the user, a concurrent resolution provisions `ext_1` (internal
id 1), then the insert hits the uniqueness violation — the resolver does not
return the existing internal id 1 (nor retry the lookup): it propagates the
violation as an error. -/
theorem raceRetriesLookup_counterexample :
    (getAuthenticatedUserIdInterleaved extEnv emptyStore provisionedStore).1
        = .error (.dbError .uniqueViolation)
    ∧ (getAuthenticatedUserIdInterleaved extEnv emptyStore provisionedStore).1 ≠ .ok 1 := by
  exact ⟨by decide, by decide⟩

/-- C3 amended: when the lookup misses and the insert then fails with a
uniqueness violation (a concurrent resolution having already provisioned the
user), `getAuthenticatedUserId` has no retry branch: the violation propagates
to the caller as an error, after the find and insert persistence calls. -/
theorem raceInsertViolationPropagates (env : AuthEnv) (db1 db2 : DB) (cid : String)
    (cu : ClerkUser)
    (hauth : env.authUserId = some cid) (hcid : cid ≠ "")
    (hmiss : db1.users.find? (fun u => u.clerkId == cid) = none)
    (hcu : env.clerkCurrentUser = some cu)
    (hemail : jsTruthy cu.emailAddresses.head? = true)
    (hdup : db2.users.any
      (fun u => u.clerkId == cid || u.email == cu.emailAddresses.head?.getD "") = true) :
    getAuthenticatedUserIdInterleaved env db1 db2
      = (.error (.dbError .uniqueViolation), db2, [.queryUsersFindFirst, .insertUsers]) := by
  unfold getAuthenticatedUserIdInterleaved
  rw [hauth]
  rw [if_neg (by simp [jsTruthy, hcid])]
  simp only [Option.getD_some]
  rw [hmiss, hcu]
  dsimp only
  rw [if_neg (by simp [hemail])]
  unfold insertUser
  rw [if_pos hdup]

/-- C4: resolution is idempotent in effect — if a call succeeds with internal
id `uid` leaving store `db1`, then a second sequential call for the same
external identity again returns `uid`, leaves `db1` unchanged, and issues
only the lookup query (a pure read, no insert); and the first call issued at
most one insert. -/
theorem resolveIsIdempotent (env : AuthEnv) (db db1 : DB) (uid : Int) (ops : List DbOp)
    (h : getAuthenticatedUserId env db = (.ok uid, db1, ops)) :
    getAuthenticatedUserId env db1 = (.ok uid, db1, [.queryUsersFindFirst])
    ∧ ops.count .insertUsers ≤ 1 := by
  unfold getAuthenticatedUserId at h ⊢
  by_cases ht : jsTruthy env.authUserId = true
  swap
  · rw [if_pos (by simp [ht])] at h
    simp at h
  rw [if_neg (by simp [ht])] at h ⊢
  rcases hfind : db.users.find? (fun u => u.clerkId == env.authUserId.getD "") with _ | user
  swap
  · rw [hfind] at h
    simp only [Prod.mk.injEq, Except.ok.injEq] at h
    obtain ⟨h1, h2, h3⟩ := h
    subst h1 h2 h3
    rw [hfind]
    exact ⟨rfl, by decide⟩
  · rw [hfind] at h
    rcases hcu : env.clerkCurrentUser with _ | cu
    · rw [hcu] at h
      simp at h
    rw [hcu] at h
    dsimp only at h
    by_cases hem : jsTruthy cu.emailAddresses.head? = true
    swap
    · rw [if_pos (by simp [hem])] at h
      simp at h
    rw [if_neg (by simp [hem])] at h
    unfold insertUser at h
    by_cases hdup : db.users.any
        (fun u => u.clerkId == env.authUserId.getD ""
          || u.email == cu.emailAddresses.head?.getD "") = true
    · rw [if_pos hdup] at h
      simp at h
    · rw [if_neg hdup] at h
      dsimp only at h
      simp only [Prod.mk.injEq, Except.ok.injEq] at h
      obtain ⟨h1, h2, h3⟩ := h
      subst h1 h2 h3
      refine ⟨?_, by decide⟩
      rw [List.find?_append, hfind]
      simp [List.find?]

/-- C4 witness: after first-time provisioning of `ext_1`, the second call is
a pure read returning the same id over the unchanged store. -/
theorem resolveIsIdempotent_witness :
    getAuthenticatedUserId extEnv provisionedStore
        = (.ok 1, provisionedStore, [.queryUsersFindFirst])
    ∧ List.count DbOp.insertUsers [DbOp.queryUsersFindFirst, DbOp.insertUsers] ≤ 1 :=
  resolveIsIdempotent extEnv emptyStore provisionedStore 1
    [DbOp.queryUsersFindFirst, DbOp.insertUsers] (by decide)

/-- C3 amended witness: the race at the concrete store pair of the
counterexample. -/
theorem raceInsertViolationPropagates_witness :
    getAuthenticatedUserIdInterleaved extEnv emptyStore provisionedStore
      = (.error (.dbError .uniqueViolation), provisionedStore,
          [.queryUsersFindFirst, .insertUsers]) :=
  raceInsertViolationPropagates extEnv emptyStore provisionedStore "ext_1"
    { emailAddresses := ["a@b.com"], firstName := none, lastName := none }
    rfl (by decide) rfl rfl (by decide) (by decide)

/-- C6: for the same user and date, `getWorkoutStatsByDate` reports
`totalWorkouts` equal to the length of the list `getWorkoutsByDate`
returns. -/
theorem statsCountMatchesRead (env : AuthEnv) (db : DB) (date : Int)
    (ws : List WorkoutWithExercises) (stats : WorkoutStats)
    (h1 : (getWorkoutsByDate env db date).1 = .ok ws)
    (h2 : (getWorkoutStatsByDate env db date).1 = .ok stats) :
    stats.totalWorkouts = ws.length := by
  rcases hres : getAuthenticatedUserId env db with ⟨res, db1, ops⟩
  cases res with
  | error e =>
    unfold getWorkoutsByDate at h1
    rw [hres] at h1
    simp at h1
  | ok uid =>
    unfold getWorkoutsByDate at h1
    unfold getWorkoutStatsByDate at h2
    rw [hres] at h1 h2
    dsimp only at h1 h2
    rw [Except.ok.injEq] at h1 h2
    subst h1 h2
    show (statsRows db1 uid date).length = _
    unfold statsRows
    simp [List.length_mergeSort]

/-- Inserting a user commutes with rewriting workout completion
timestamps. -/
theorem insertUser_setWorkoutCompletedAt (db : DB) (f : WorkoutRow → Option Int)
    (cid em nm : String) :
    insertUser (setWorkoutCompletedAt db f) cid em nm
      = match insertUser db cid em nm with
        | .error e => .error e
        | .ok (r, db2) => .ok (r, setWorkoutCompletedAt db2 f) := by
  unfold insertUser setWorkoutCompletedAt
  dsimp only
  by_cases hdup : db.users.any (fun u => u.clerkId == cid || u.email == em) = true
  · rw [if_pos hdup, if_pos hdup]
  · rw [if_neg hdup, if_neg hdup]

/-- Identity resolution is oblivious to workout completion timestamps. -/
theorem auth_setWorkoutCompletedAt (env : AuthEnv) (db : DB) (f : WorkoutRow → Option Int) :
    getAuthenticatedUserId env (setWorkoutCompletedAt db f)
      = ((getAuthenticatedUserId env db).1,
          setWorkoutCompletedAt (getAuthenticatedUserId env db).2.1 f,
          (getAuthenticatedUserId env db).2.2) := by
  unfold getAuthenticatedUserId
  by_cases ht : jsTruthy env.authUserId = true
  swap
  · rw [if_pos (by simp [ht]), if_pos (by simp [ht])]
  rw [if_neg (by simp [ht]), if_neg (by simp [ht])]
  have husers : (setWorkoutCompletedAt db f).users = db.users := rfl
  rw [husers]
  rcases hfind : db.users.find? (fun u => u.clerkId == env.authUserId.getD "") with _ | user
  · rw [hfind]
    dsimp only
    rcases hcu : env.clerkCurrentUser with _ | cu
    · rfl
    dsimp only
    by_cases hem : jsTruthy cu.emailAddresses.head? = true
    swap
    · rw [if_pos (by simp [hem]), if_pos (by simp [hem])]
    rw [if_neg (by simp [hem]), if_neg (by simp [hem])]
    rw [insertUser_setWorkoutCompletedAt]
    rcases hins : insertUser db (env.authUserId.getD "") (cu.emailAddresses.head?.getD "")
        (deriveDisplayName cu.firstName cu.lastName cu.emailAddresses.head?) with e | rdb2
    · rfl
    · rcases rdb2 with ⟨r, db2⟩
      rfl
  · rw [hfind]

/-- The stats read over a store with rewritten completion timestamps is the
original read with each row's `completedAt` rewritten. -/
theorem statsRows_ignore_completedAt (db : DB) (uid date : Int)
    (f : WorkoutRow → Option Int) :
    statsRows (setWorkoutCompletedAt db f) uid date
      = (statsRows db uid date).map
          (fun r => { r with workout := { r.workout with completedAt := f r.workout } }) := by
  unfold statsRows setWorkoutCompletedAt
  rw [List.filter_map, List.map_map, List.map_map]
  rfl

/-- C7: a successful `getWorkoutStatsByDate` reports `totalExercises` equal
to the sum of the per-workout exercise counts over the filtered workouts
(an empty exercise collection contributing zero), and `totalDuration` equal
to the sum of the workouts' `duration` fields with an absent duration
contributing zero — and the result is invariant under arbitrary rewriting of
every `completedAt`, so it is never derived from `completedAt` minus
`startedAt`. -/
theorem statsAggregates (env : AuthEnv) (db : DB) (date : Int)
    (uid : Int) (db1 : DB) (ops : List DbOp) (stats : WorkoutStats)
    (hauth : getAuthenticatedUserId env db = (.ok uid, db1, ops))
    (h : (getWorkoutStatsByDate env db date).1 = .ok stats) :
    stats.totalExercises
        = ((filteredWorkouts db1 uid date).map
            (fun w => (db1.exercises.filter (fun e => e.workoutId == w.id)).length)).sum
    ∧ stats.totalDuration
        = ((filteredWorkouts db1 uid date).map (fun w => w.duration.getD 0)).sum
    ∧ ∀ f : WorkoutRow → Option Int,
        (getWorkoutStatsByDate env (setWorkoutCompletedAt db f) date).1 = .ok stats := by
  unfold getWorkoutStatsByDate at h
  rw [hauth] at h
  dsimp only at h
  rw [Except.ok.injEq] at h
  subst h
  refine ⟨?_, ?_, ?_⟩
  · show (statsRows db1 uid date).foldl _ 0 = _
    unfold statsRows filteredWorkouts
    rw [List.foldl_map, foldl_add_eq_sum]
    simp
  · show (statsRows db1 uid date).foldl _ 0 = _
    unfold statsRows filteredWorkouts
    rw [List.foldl_map, foldl_add_eq_sum]
    simp
  · intro f
    unfold getWorkoutStatsByDate
    rw [auth_setWorkoutCompletedAt, hauth]
    dsimp only
    rw [Except.ok.injEq]
    rw [statsRows_ignore_completedAt, List.foldl_map, List.foldl_map, List.length_map]

unseal List.merge List.mergeSort in
/-- C6 witness: on the concrete store the stats report 1 workout, matching
the one-element dated read. -/
theorem statsCountMatchesRead_witness :
    (WorkoutStats.mk 1 2 45).totalWorkouts = [eveningItem].length :=
  statsCountMatchesRead extEnv mainStore day20240310 [eveningItem]
    (WorkoutStats.mk 1 2 45) (by decide) (by decide)

/-- C7 witness: on the concrete store the aggregates equal the stated sums
(2 exercises, 45 minutes). -/
theorem statsAggregates_witness :
    (WorkoutStats.mk 1 2 45).totalExercises
        = ((filteredWorkouts mainStore 1 day20240310).map
            (fun w => (mainStore.exercises.filter (fun e => e.workoutId == w.id)).length)).sum
    ∧ (WorkoutStats.mk 1 2 45).totalDuration
        = ((filteredWorkouts mainStore 1 day20240310).map (fun w => w.duration.getD 0)).sum := by
  have h := statsAggregates extEnv mainStore day20240310 1 mainStore [.queryUsersFindFirst]
    (WorkoutStats.mk 1 2 45) (by decide) (by decide)
  exact ⟨h.1, h.2.1⟩

/-- Any enriched mergeSort result satisfies the full ordering contract. -/
theorem resultOrdered_enrichedSorted (db1 : DB) (l : List WorkoutRow) :
    resultOrdered ((l.mergeSort (fun a b => decide (b.startedAt ≤ a.startedAt))).map
      (fun w => { workout := w, exercises := exercisesWithSetsOfWorkout db1 w })) := by
  refine ⟨?_, ?_, ?_⟩
  · rw [List.pairwise_map]
    exact pairwise_of_mergeSort _ _ (fun a b hab => by simpa using hab)
      (fun a b c h1 h2 => by simp_all; omega)
      (fun a b => by simpa using Int.le_total _ _) l
  · intro item hi
    rcases List.mem_map.mp hi with ⟨w, _, rfl⟩
    show (exercisesWithSetsOfWorkout db1 w).Pairwise _
    unfold exercisesWithSetsOfWorkout
    rw [List.pairwise_map]
    exact pairwise_of_mergeSort _ _ (fun a b hab => by simpa using hab)
      (fun a b c h1 h2 => by simp_all; omega)
      (fun a b => by simpa using Int.le_total _ _) _
  · intro item hi ex hex
    rcases List.mem_map.mp hi with ⟨w, _, rfl⟩
    have hex2 : ex ∈ exercisesWithSetsOfWorkout db1 w := hex
    unfold exercisesWithSetsOfWorkout at hex2
    rcases List.mem_map.mp hex2 with ⟨e, _, rfl⟩
    show (setsOfExercise db1 e).Pairwise _
    unfold setsOfExercise
    exact pairwise_of_mergeSort _ _ (fun a b hab => by simpa using hab)
      (fun a b c h1 h2 => by simp_all; omega)
      (fun a b => by simpa using Int.le_total _ _) _

/-- C2: every successful result of `getWorkoutsByDate` and of
`getUserWorkouts` is ordered — workouts descending by `startedAt`, each
workout's exercises ascending by `exerciseOrder`, each exercise's sets
ascending by `setNumber`. -/
theorem queryResultsOrdered (env : AuthEnv) (db : DB) (date : Int)
    (ws wsAll : List WorkoutWithExercises)
    (h1 : (getWorkoutsByDate env db date).1 = .ok ws)
    (h2 : (getUserWorkouts env db).1 = .ok wsAll) :
    resultOrdered ws ∧ resultOrdered wsAll := by
  rcases hres : getAuthenticatedUserId env db with ⟨res, db1, ops⟩
  cases res with
  | error e =>
    unfold getWorkoutsByDate at h1
    rw [hres] at h1
    simp at h1
  | ok uid =>
    unfold getWorkoutsByDate at h1
    unfold getUserWorkouts at h2
    rw [hres] at h1 h2
    dsimp only at h1 h2
    rw [Except.ok.injEq] at h1 h2
    subst h1 h2
    exact ⟨resultOrdered_enrichedSorted db1 _, resultOrdered_enrichedSorted db1 _⟩

unseal List.merge List.mergeSort in
/-- C2 witness: the ordering contract holds on the concrete dated and
undated reads of the fixture store. -/
theorem queryResultsOrdered_witness :
    resultOrdered [eveningItem] ∧ resultOrdered [eveningItem] :=
  queryResultsOrdered extEnv mainStore day20240310 [eveningItem] [eveningItem]
    (by decide) (by decide)

end LiftingDiary
